import Mathlib

/-
Verification development for structlog's thread-local context module
(src/structlog/threadlocal.py).

The module is embedded shallowly:

* A context "mapping" (a Python dict used as backing store) is an
  insertion-ordered association list `Mapping := List (String × Nat)`
  with dict semantics for item assignment and `update`.
* Mutable objects live in an explicit heap: `TLState.heap` maps object
  addresses to mapping contents.  Each context type produced by
  `wrap_dict` gets a fresh numeric type id; its class-level
  `threading.local()` slot is modelled by `TLState.slots`, which maps a
  pair (type id, thread id) to the address of that thread's backing
  mapping.  `TLState.dictClasses` records, per type id, the mapping that
  the wrapped dict class produces when called with no arguments
  (`_dict_class()`), and counters provide fresh addresses / type ids.
* `getDict` is the `_ThreadLocalDictWrapper._dict` property (lazy
  per-thread creation), `construct` is `_ThreadLocalDictWrapper.__init__`,
  `setItemOp` is `__setitem__`, `getattrOp` is `__getattr__` with its
  per-instance method cache, `instanceEq`/`instanceNe` are
  `__eq__`/`__ne__`, and `tmp_bind` is the body of the
  `contextlib.contextmanager` generator `tmp_bind`, with the
  caller-supplied with-block passed explicitly as a function from the
  yielded logger and the state to (optional exception, new state).
  Crucially, the source has no try/finally around its `yield`, and the
  embedding reproduces that: an exception from the block propagates
  without running the clear/update restore steps.
-/

namespace Structlog

/-- A Python dict with string keys and numeric values, modelled as an
insertion-ordered association list without duplicate keys. -/
abbrev Mapping := List (String × Nat)

/-- First-match lookup in an association list. -/
def assocLookup {α β : Type} [DecidableEq α] : List (α × β) → α → Option β
  | [], _ => none
  | e :: rest, key => if e.1 = key then some e.2 else assocLookup rest key

/-- Replace the value at a key in place, or append the pair at the end:
the semantics of Python dict item assignment on an ordered dict. -/
def assocSet {α β : Type} [DecidableEq α] : List (α × β) → α → β → List (α × β)
  | [], key, val => [(key, val)]
  | e :: rest, key, val =>
      if e.1 = key then (key, val) :: rest else e :: assocSet rest key val

/-- `d[k]` as `dict.get`: first-match lookup. -/
def dictLookup (m : Mapping) (key : String) : Option Nat :=
  assocLookup m key

/-- `d[k] = v`: dict item assignment. -/
def dictSetItem (m : Mapping) (key : String) (val : Nat) : Mapping :=
  assocSet m key val

/-- `d.update(u)`: assign every pair of `u` into `d`, in order. -/
def dictUpdate (m u : Mapping) : Mapping :=
  u.foldl (fun acc kv => dictSetItem acc kv.1 kv.2) m

/-- The global mutable state of the module: the heap of backing
mappings, the per-(type id, thread id) slots of every class-level
`threading.local()`, the registry of wrapped dict classes, and fresh
counters for addresses and type ids. -/
structure TLState where
  heap : List (Nat × Mapping)
  nextAddr : Nat
  slots : List ((Nat × Nat) × Nat)
  dictClasses : List (Nat × Mapping)
  nextTypeId : Nat
deriving DecidableEq, Repr

/-- Address of the backing mapping of type `typeId` on thread `tid`,
if that thread has already created one (`_tl.dict_` existing or not). -/
def TLState.slotAddr (s : TLState) (typeId tid : Nat) : Option Nat :=
  assocLookup s.slots (typeId, tid)

/-- Contents of the heap object at address `a`. -/
def TLState.heapGet (s : TLState) (a : Nat) : Mapping :=
  (assocLookup s.heap a).getD []

/-- Overwrite the heap object at address `a` in place. -/
def TLState.heapSet (s : TLState) (a : Nat) (m : Mapping) : TLState :=
  { s with heap := assocSet s.heap a m }

/-- The mapping produced by calling type `typeId`'s `_dict_class` with
no arguments (for `dict` itself this is the empty mapping). -/
def TLState.dictClassOf (s : TLState) (typeId : Nat) : Mapping :=
  (assocLookup s.dictClasses typeId).getD []

/-- `wrap_dict(dict_class)`: mint a fresh, uniquely named subclass of
`_ThreadLocalDictWrapper` with its own class-level `threading.local()`
slot and the given `_dict_class`.  The uuid-based unique name is
modelled by the fresh numeric type id. -/
def wrap_dict (dictClass : Mapping) (s : TLState) : Nat × TLState :=
  (s.nextTypeId,
   { s with
       nextTypeId := s.nextTypeId + 1
       dictClasses := (s.nextTypeId, dictClass) :: s.dictClasses })

/-- Lazy creation step of the `_dict` property: allocate a fresh
`_dict_class()` instance and store its address in the thread-local
slot of (`typeId`, `tid`). -/
def allocDict (typeId tid : Nat) (s : TLState) : TLState :=
  { s with
      heap := (s.nextAddr, s.dictClassOf typeId) :: s.heap
      nextAddr := s.nextAddr + 1
      slots := ((typeId, tid), s.nextAddr) :: s.slots }

/-- The `_dict` property: return the current thread's backing mapping,
creating it first (by calling `_dict_class()` and storing the result in
the thread-local slot) if this thread has none yet.  Returns the
address of the mapping together with the possibly extended state. -/
def getDict (typeId tid : Nat) (s : TLState) : Nat × TLState :=
  match s.slotAddr typeId tid with
  | some a => (a, s)
  | none => (s.nextAddr, allocDict typeId tid s)

/-- The first positional argument of `_ThreadLocalDictWrapper.__init__`:
either an instance of the same context class, or a plain mapping. -/
inductive PosArg
  | sameType
  | plainMapping (m : Mapping)
deriving DecidableEq, Repr

/-- `_ThreadLocalDictWrapper.__init__(*args, **kw)`: never recreates the
backing mapping.  If the first positional argument is an instance of the
same class, only the keyword arguments are merged
(`self._dict.update(**kw)`); otherwise all arguments are forwarded to
`self._dict.update(*args, **kw)`. -/
def construct (typeId tid : Nat) (posArg : Option PosArg) (kw : Mapping)
    (s : TLState) : TLState :=
  let r := getDict typeId tid s
  match posArg with
  | some PosArg.sameType => r.2.heapSet r.1 (dictUpdate (r.2.heapGet r.1) kw)
  | some (PosArg.plainMapping m) =>
      r.2.heapSet r.1 (dictUpdate (dictUpdate (r.2.heapGet r.1) m) kw)
  | none => r.2.heapSet r.1 (dictUpdate (r.2.heapGet r.1) kw)

/-- `_ThreadLocalDictWrapper.__setitem__`: assign into the current
thread's backing mapping. -/
def setItemOp (typeId tid : Nat) (key : String) (val : Nat) (s : TLState) : TLState :=
  let r := getDict typeId tid s
  r.2.heapSet r.1 (dictSetItem (r.2.heapGet r.1) key val)

/-- A method of a concrete backing mapping object, as obtained by
`getattr(self._dict, name)`: it stays bound to the mapping at `addr`
no matter which thread later calls it. -/
structure BoundMethod where
  addr : Nat
  methodName : String
deriving DecidableEq, Repr

/-- A `_ThreadLocalDictWrapper` instance: it owns no data, only its
class (type id) and the per-instance attribute cache that
`__getattr__` fills via `setattr`. -/
structure CtxInstance where
  typeId : Nat
  attrCache : List (String × BoundMethod)
deriving DecidableEq, Repr

/-- A freshly constructed context instance (empty attribute cache). -/
def newInstance (typeId : Nat) : CtxInstance :=
  ⟨typeId, []⟩

/-- `_ThreadLocalDictWrapper.__eq__`: same class iff equal; content is
never consulted. -/
def instanceEq (x y : CtxInstance) : Bool :=
  x.typeId == y.typeId

/-- `_ThreadLocalDictWrapper.__ne__`: the negation of `__eq__`. -/
def instanceNe (x y : CtxInstance) : Bool :=
  !(instanceEq x y)

/-- `_ThreadLocalDictWrapper.__getattr__(name)`: called only when the
attribute is not yet on the instance.  Fetches the bound method of the
current thread's backing mapping, stores it on the instance with
`setattr`, and returns it.  A later lookup of the same attribute finds
the instance attribute first, so the cached method is returned as is. -/
def getattrOp (inst : CtxInstance) (nm : String) (tid : Nat) (s : TLState) :
    BoundMethod × CtxInstance × TLState :=
  match assocLookup inst.attrCache nm with
  | some m => (m, inst, s)
  | none =>
      let r := getDict inst.typeId tid s
      (⟨r.1, nm⟩, ⟨inst.typeId, (nm, ⟨r.1, nm⟩) :: inst.attrCache⟩, r.2)

/-- The `_current_context_class` of a logger: a class produced by
`wrap_dict` (a subclass of `_ThreadLocalDictWrapper`), or an ordinary
dict class. -/
inductive ContextClass
  | wrapped (typeId : Nat)
  | plainDict
deriving DecidableEq, Repr

/-- The logger collaborator, reduced to what `tmp_bind` consults. -/
structure Logger where
  ctxClass : ContextClass
deriving DecidableEq, Repr

/-- Exceptions that the embedded operations can raise or propagate. -/
inductive Exc
  | valueError
  | attributeError
  | userExc (code : Nat)
deriving DecidableEq, Repr

/-- Modelled from the spec: `BoundLogger.bind` is not under `src/`; per
the spec's external-interface contract it "merges values into context
and returns a logger reference using the same context", which for a
thread-local logger constructs `context_class(self._context, **values)`
— the same-class branch of `__init__`, updating the thread-shared
mapping with the keyword arguments only. -/
def loggerBind (typeId : Nat) (values : Mapping) (tid : Nat) (s : TLState) : TLState :=
  construct typeId tid (some PosArg.sameType) values s

/-- The body of the `tmp_bind` context manager, with the with-block as
an explicit function.  Faithful to the source: the type check happens
first; `logger._context.copy()` goes through `__getattr__`/`_dict` and
so forces lazy creation before copying; `logger.bind(**tmp_values)`
updates the shared mapping; the block runs; and — because the source
has no try/finally around `yield` — an exception from the block
propagates immediately, skipping the clear/update restore, while on
normal completion `_tl.dict_` is cleared and repopulated from the
snapshot in place. -/
def tmp_bind (logger : Logger) (tmpValues : Mapping)
    (block : Logger → TLState → Option Exc × TLState)
    (tid : Nat) (s : TLState) : Option Exc × TLState :=
  match logger.ctxClass with
  | ContextClass.plainDict => (some Exc.valueError, s)
  | ContextClass.wrapped typeId =>
      let r := getDict typeId tid s
      let saved := r.2.heapGet r.1
      let s2 := loggerBind typeId tmpValues tid r.2
      match block logger s2 with
      | (some e, s3) => (some e, s3)
      | (none, s3) =>
          match s3.slotAddr typeId tid with
          | none => (some Exc.attributeError, s3)
          | some a2 => (none, s3.heapSet a2 (dictUpdate [] saved))

/-- The mapping contents of type `typeId`'s slot on thread `tid`, when
that thread has one. -/
def mappingAt (s : TLState) (typeId tid : Nat) : Option Mapping :=
  (s.slotAddr typeId tid).map s.heapGet

/-- What reading the context of type `typeId` on thread `tid` yields:
the existing backing mapping, or — via lazy creation — a fresh
`_dict_class()` instance. -/
def observeCtx (s : TLState) (typeId tid : Nat) : Mapping :=
  match s.slotAddr typeId tid with
  | some a => s.heapGet a
  | none => s.dictClassOf typeId

/-- Address well-formedness: distinct slots hold distinct backing
mappings, and every slot address is below the allocation counter.
Holds for every state reachable from an empty state. -/
abbrev WFaddrs (s : TLState) : Prop :=
  (s.slots.map Prod.snd).Nodup ∧ ∀ e ∈ s.slots, e.2 < s.nextAddr

/-- Type-id well-formedness: every slot belongs to a type id already
handed out by `wrap_dict`. -/
abbrev WFtypes (s : TLState) : Prop :=
  ∀ e ∈ s.slots, e.1.1 < s.nextTypeId

/-- A concrete state: one context type (id 0, dict-backed), whose
mapping on thread 0 holds exactly the pair a=1. -/
def exState : TLState :=
  { heap := [(0, [("a", 1)])]
    nextAddr := 1
    slots := [((0, 0), 0)]
    dictClasses := [(0, [])]
    nextTypeId := 1 }

/-- A logger configured with the thread-local context type 0. -/
def exLogger : Logger :=
  ⟨ContextClass.wrapped 0⟩

/-- A with-block that raises immediately. -/
def raisingBlock : Logger → TLState → Option Exc × TLState :=
  fun _ s => (some (Exc.userExc 7), s)

/-- A with-block that completes normally without touching context. -/
def idBlock : Logger → TLState → Option Exc × TLState :=
  fun _ s => (none, s)

/-- A with-block that binds c=3 through the yielded logger (thread 0)
and completes normally. -/
def bindingBlock : Logger → TLState → Option Exc × TLState :=
  fun lg s =>
    match lg.ctxClass with
    | ContextClass.wrapped t => (none, loggerBind t [("c", 3)] 0 s)
    | ContextClass.plainDict => (none, s)

/-- A concrete state with one dict-backed context type (id 0) on which
no thread has accessed the context yet. -/
def exState0 : TLState :=
  { heap := []
    nextAddr := 0
    slots := []
    dictClasses := [(0, [])]
    nextTypeId := 1 }

/-! ### Association-list lemmas -/

theorem assocLookup_mem {α β : Type} [DecidableEq α] {l : List (α × β)} {key : α} {b : β}
    (h : assocLookup l key = some b) : (key, b) ∈ l := by
  induction l with
  | nil => simp [assocLookup] at h
  | cons e rest ih =>
      rw [assocLookup] at h
      by_cases he : e.1 = key
      · rw [if_pos he] at h
        have hb : e.2 = b := Option.some.inj h
        obtain ⟨e1, e2⟩ := e
        subst he
        subst hb
        exact List.mem_cons_self _ _
      · rw [if_neg he] at h
        exact List.mem_cons_of_mem _ (ih h)

theorem assocLookup_assocSet_self {α β : Type} [DecidableEq α]
    (l : List (α × β)) (k : α) (v : β) :
    assocLookup (assocSet l k v) k = some v := by
  induction l with
  | nil => simp [assocSet, assocLookup]
  | cons e rest ih =>
      by_cases he : e.1 = k
      · simp [assocSet, he, assocLookup]
      · simp [assocSet, he, assocLookup, ih]

theorem assocLookup_assocSet_other {α β : Type} [DecidableEq α]
    (l : List (α × β)) (k k' : α) (v : β) (h : k' ≠ k) :
    assocLookup (assocSet l k v) k' = assocLookup l k' := by
  induction l with
  | nil => simp [assocSet, assocLookup, Ne.symm h]
  | cons e rest ih =>
      by_cases he : e.1 = k
      · subst he
        simp [assocSet, assocLookup, Ne.symm h]
      · simp [assocSet, he, assocLookup, ih]

theorem assocLookup_inj {α β : Type} [DecidableEq α] {l : List (α × β)}
    (hnd : (l.map Prod.snd).Nodup) {k1 k2 : α} {b : β}
    (h1 : assocLookup l k1 = some b) (h2 : assocLookup l k2 = some b) : k1 = k2 := by
  induction l with
  | nil => simp [assocLookup] at h1
  | cons e rest ih =>
      rw [List.map_cons, List.nodup_cons] at hnd
      rw [assocLookup] at h1 h2
      by_cases he1 : e.1 = k1
      · rw [if_pos he1] at h1
        by_cases he2 : e.1 = k2
        · rw [he1] at he2
          exact he2
        · exfalso
          rw [if_neg he2] at h2
          have hb : e.2 = b := Option.some.inj h1
          have hmem : b ∈ rest.map Prod.snd :=
            List.mem_map_of_mem Prod.snd (assocLookup_mem h2)
          exact hnd.1 (by rw [hb]; exact hmem)
      · rw [if_neg he1] at h1
        by_cases he2 : e.1 = k2
        · exfalso
          rw [if_pos he2] at h2
          have hb : e.2 = b := Option.some.inj h2
          have hmem : b ∈ rest.map Prod.snd :=
            List.mem_map_of_mem Prod.snd (assocLookup_mem h1)
          exact hnd.1 (by rw [hb]; exact hmem)
        · rw [if_neg he2] at h2
          exact ih hnd.2 h1 h2

theorem dictLookup_setItem_self (m : Mapping) (key : String) (val : Nat) :
    dictLookup (dictSetItem m key val) key = some val :=
  assocLookup_assocSet_self m key val

/-! ### Heap and slot lemmas -/

theorem slotAddr_heapSet (s : TLState) (a : Nat) (m : Mapping) (typeId tid : Nat) :
    (s.heapSet a m).slotAddr typeId tid = s.slotAddr typeId tid := rfl

theorem heapGet_heapSet_self (s : TLState) (a : Nat) (m : Mapping) :
    (s.heapSet a m).heapGet a = m := by
  simp [TLState.heapSet, TLState.heapGet, assocLookup_assocSet_self]

theorem heapGet_heapSet_other (s : TLState) (a a' : Nat) (m : Mapping) (h : a' ≠ a) :
    (s.heapSet a m).heapGet a' = s.heapGet a' := by
  simp [TLState.heapSet, TLState.heapGet, assocLookup_assocSet_other _ _ _ _ h]

theorem slotAddr_allocDict_self (typeId tid : Nat) (s : TLState) :
    (allocDict typeId tid s).slotAddr typeId tid = some s.nextAddr := by
  simp [allocDict, TLState.slotAddr, assocLookup]

theorem slotAddr_allocDict_other (typeId tid t2 tid2 : Nat) (s : TLState)
    (h : ¬(t2 = typeId ∧ tid2 = tid)) :
    (allocDict typeId tid s).slotAddr t2 tid2 = s.slotAddr t2 tid2 := by
  have hkey : ((typeId, tid) : Nat × Nat) ≠ (t2, tid2) := by
    intro hk
    rw [Prod.mk.injEq] at hk
    exact h ⟨hk.1.symm, hk.2.symm⟩
  simp [allocDict, TLState.slotAddr, assocLookup, hkey]

theorem heapGet_allocDict_self (typeId tid : Nat) (s : TLState) :
    (allocDict typeId tid s).heapGet s.nextAddr = s.dictClassOf typeId := by
  simp [allocDict, TLState.heapGet, assocLookup]

theorem heapGet_allocDict_other (typeId tid a : Nat) (s : TLState) (h : a ≠ s.nextAddr) :
    (allocDict typeId tid s).heapGet a = s.heapGet a := by
  simp [allocDict, TLState.heapGet, assocLookup, Ne.symm h]

theorem getDict_found {typeId tid a : Nat} {s : TLState}
    (h : s.slotAddr typeId tid = some a) :
    getDict typeId tid s = (a, s) := by
  rw [getDict, h]

theorem getDict_slotAddr_self (typeId tid : Nat) (s : TLState) :
    ((getDict typeId tid s).2).slotAddr typeId tid = some (getDict typeId tid s).1 := by
  cases h : s.slotAddr typeId tid with
  | some a => rw [getDict, h]; exact h
  | none => rw [getDict, h]; exact slotAddr_allocDict_self typeId tid s

theorem getDict_idem (typeId tid : Nat) (s : TLState) :
    getDict typeId tid ((getDict typeId tid s).2) = getDict typeId tid s := by
  rw [getDict_found (getDict_slotAddr_self typeId tid s)]

/-! ### Well-formedness preservation -/

theorem WFaddrs_allocDict (typeId tid : Nat) (s : TLState) (hWF : WFaddrs s) :
    WFaddrs (allocDict typeId tid s) := by
  constructor
  · simp only [allocDict, List.map_cons, List.nodup_cons]
    constructor
    · intro hmem
      obtain ⟨e, he, heq⟩ := List.mem_map.mp hmem
      have := hWF.2 e he
      omega
    · exact hWF.1
  · intro e he
    simp only [allocDict, List.mem_cons] at he
    rcases he with rfl | he
    · simp [allocDict]
    · have := hWF.2 e he
      simp only [allocDict]
      omega

theorem WFaddrs_getDict (typeId tid : Nat) (s : TLState) (hWF : WFaddrs s) :
    WFaddrs ((getDict typeId tid s).2) := by
  cases h : s.slotAddr typeId tid with
  | some a => rw [getDict, h]; exact hWF
  | none => rw [getDict, h]; exact WFaddrs_allocDict typeId tid s hWF

theorem WFaddrs_heapSet (s : TLState) (a : Nat) (m : Mapping) (hWF : WFaddrs s) :
    WFaddrs (s.heapSet a m) := hWF

/-! ### Frame lemmas: operations of one (type, thread) pair do not
touch what any other (type, thread) pair observes -/

theorem observeCtx_some {s : TLState} {typeId tid a : Nat}
    (h : s.slotAddr typeId tid = some a) :
    observeCtx s typeId tid = s.heapGet a := by
  rw [observeCtx, h]

theorem observeCtx_none {s : TLState} {typeId tid : Nat}
    (h : s.slotAddr typeId tid = none) :
    observeCtx s typeId tid = s.dictClassOf typeId := by
  rw [observeCtx, h]

theorem dictClassOf_allocDict (typeId tid t2 : Nat) (s : TLState) :
    (allocDict typeId tid s).dictClassOf t2 = s.dictClassOf t2 := rfl

theorem dictClassOf_heapSet (s : TLState) (a : Nat) (m : Mapping) (t2 : Nat) :
    (s.heapSet a m).dictClassOf t2 = s.dictClassOf t2 := rfl

theorem observeCtx_getDict_frame (typeId tid t2 tid2 : Nat) (s : TLState)
    (hWF : WFaddrs s) (hne : ¬(t2 = typeId ∧ tid2 = tid)) :
    observeCtx ((getDict typeId tid s).2) t2 tid2 = observeCtx s t2 tid2 := by
  cases h : s.slotAddr typeId tid with
  | some a => rw [getDict, h]
  | none =>
      rw [getDict, h]
      simp only
      have hs := slotAddr_allocDict_other typeId tid t2 tid2 s hne
      cases h2 : s.slotAddr t2 tid2 with
      | none =>
          rw [observeCtx_none (hs.trans h2), observeCtx_none h2,
              dictClassOf_allocDict]
      | some a2 =>
          have ha2 : a2 ≠ s.nextAddr :=
            Nat.ne_of_lt (hWF.2 ((t2, tid2), a2) (assocLookup_mem h2))
          rw [observeCtx_some (hs.trans h2), observeCtx_some h2,
              heapGet_allocDict_other typeId tid a2 s ha2]

theorem observeCtx_heapSet_frame (s : TLState) (typeId tid t2 tid2 a : Nat) (m : Mapping)
    (hnd : (s.slots.map Prod.snd).Nodup)
    (ha : s.slotAddr typeId tid = some a)
    (hne : ¬(t2 = typeId ∧ tid2 = tid)) :
    observeCtx (s.heapSet a m) t2 tid2 = observeCtx s t2 tid2 := by
  have hs := slotAddr_heapSet s a m t2 tid2
  cases h2 : s.slotAddr t2 tid2 with
  | none =>
      rw [observeCtx_none (hs.trans h2), observeCtx_none h2, dictClassOf_heapSet]
  | some a2 =>
      have hne2 : a2 ≠ a := by
        intro heq
        subst heq
        have hk := assocLookup_inj hnd h2 ha
        rw [Prod.mk.injEq] at hk
        exact hne hk
      rw [observeCtx_some (hs.trans h2), observeCtx_some h2,
          heapGet_heapSet_other s a a2 m hne2]

/-! ### Operation-level lemmas -/

theorem construct_eq (typeId tid : Nat) (p : Option PosArg) (kw : Mapping) (s : TLState) :
    construct typeId tid p kw s =
      ((getDict typeId tid s).2).heapSet (getDict typeId tid s).1
        (dictUpdate
          (dictUpdate (((getDict typeId tid s).2).heapGet (getDict typeId tid s).1)
            (match p with
             | some (PosArg.plainMapping m) => m
             | _ => []))
          kw) := by
  cases p with
  | none => rfl
  | some pa => cases pa <;> rfl

theorem slotAddr_construct (typeId tid t2 tid2 : Nat) (p : Option PosArg)
    (kw : Mapping) (s : TLState) :
    (construct typeId tid p kw s).slotAddr t2 tid2
      = ((getDict typeId tid s).2).slotAddr t2 tid2 := by
  rw [construct_eq]
  rfl

theorem WFaddrs_construct (typeId tid : Nat) (p : Option PosArg) (kw : Mapping)
    (s : TLState) (hWF : WFaddrs s) :
    WFaddrs (construct typeId tid p kw s) := by
  rw [construct_eq]
  exact WFaddrs_getDict typeId tid s hWF

theorem observeCtx_construct_frame (typeId tid t2 tid2 : Nat) (p : Option PosArg)
    (kw : Mapping) (s : TLState) (hWF : WFaddrs s)
    (hne : ¬(t2 = typeId ∧ tid2 = tid)) :
    observeCtx (construct typeId tid p kw s) t2 tid2 = observeCtx s t2 tid2 := by
  rw [construct_eq]
  rw [observeCtx_heapSet_frame _ typeId tid t2 tid2 _ _
        (WFaddrs_getDict typeId tid s hWF).1 (getDict_slotAddr_self typeId tid s) hne]
  exact observeCtx_getDict_frame typeId tid t2 tid2 s hWF hne

theorem setItemOp_eq (typeId tid : Nat) (key : String) (val : Nat) (s : TLState) :
    setItemOp typeId tid key val s =
      ((getDict typeId tid s).2).heapSet (getDict typeId tid s).1
        (dictSetItem (((getDict typeId tid s).2).heapGet (getDict typeId tid s).1) key val) :=
  rfl

theorem WFaddrs_setItemOp (typeId tid : Nat) (key : String) (val : Nat)
    (s : TLState) (hWF : WFaddrs s) :
    WFaddrs (setItemOp typeId tid key val s) := by
  rw [setItemOp_eq]
  exact WFaddrs_getDict typeId tid s hWF

theorem observeCtx_setItemOp_frame (typeId tid t2 tid2 : Nat) (key : String) (val : Nat)
    (s : TLState) (hWF : WFaddrs s) (hne : ¬(t2 = typeId ∧ tid2 = tid)) :
    observeCtx (setItemOp typeId tid key val s) t2 tid2 = observeCtx s t2 tid2 := by
  rw [setItemOp_eq]
  rw [observeCtx_heapSet_frame _ typeId tid t2 tid2 _ _
        (WFaddrs_getDict typeId tid s hWF).1 (getDict_slotAddr_self typeId tid s) hne]
  exact observeCtx_getDict_frame typeId tid t2 tid2 s hWF hne

theorem slotAddr_setItemOp (typeId tid t2 tid2 : Nat) (key : String) (val : Nat)
    (s : TLState) :
    (setItemOp typeId tid key val s).slotAddr t2 tid2
      = ((getDict typeId tid s).2).slotAddr t2 tid2 := rfl

theorem tmp_bind_wrapped_raise (typeId tid : Nat) (tmpValues : Mapping)
    (block : Logger → TLState → Option Exc × TLState) (s s3 : TLState) (e : Exc)
    (hblock : block ⟨ContextClass.wrapped typeId⟩
        (loggerBind typeId tmpValues tid (getDict typeId tid s).2) = (some e, s3)) :
    tmp_bind ⟨ContextClass.wrapped typeId⟩ tmpValues block tid s = (some e, s3) := by
  rw [tmp_bind]
  simp only
  rw [hblock]

theorem tmp_bind_wrapped_normal (typeId tid a3 : Nat) (tmpValues : Mapping)
    (block : Logger → TLState → Option Exc × TLState) (s s3 : TLState)
    (hblock : block ⟨ContextClass.wrapped typeId⟩
        (loggerBind typeId tmpValues tid (getDict typeId tid s).2) = (none, s3))
    (ha3 : s3.slotAddr typeId tid = some a3) :
    tmp_bind ⟨ContextClass.wrapped typeId⟩ tmpValues block tid s =
      (none,
       s3.heapSet a3
         (dictUpdate [] (((getDict typeId tid s).2).heapGet (getDict typeId tid s).1))) := by
  rw [tmp_bind]
  simp only
  rw [hblock]
  simp only
  rw [ha3]

theorem mappingAt_heapSet_self (s : TLState) (typeId tid a : Nat) (m : Mapping)
    (h : s.slotAddr typeId tid = some a) :
    mappingAt (s.heapSet a m) typeId tid = some m := by
  simp [mappingAt, slotAddr_heapSet, h, heapGet_heapSet_self]

/-! ### Claim theorems -/

/-- C1: the claim says the release step (clear the thread's shared mapping,
repopulate it from the snapshot) runs on every exit path of the scoped binder,
including when the with-block raises.  The source has no try/finally around
the `yield` in `tmp_bind`, so a failure thrown into the generator skips the
two restore lines entirely.  Concretely: with thread context a=1, running
`tmp_bind(logger, b=2)` around a block that raises propagates the failure
unchanged but leaves the shared mapping at a=1, b=2 instead of restoring it
to a=1.  This theorem evaluates the embedded code at that failing input. -/
theorem tmp_bind_skips_restore_on_raise :
    (tmp_bind exLogger [("b", 2)] raisingBlock 0 exState).1 = some (Exc.userExc 7) ∧
    mappingAt (tmp_bind exLogger [("b", 2)] raisingBlock 0 exState).2 0 0
      = some [("a", 1), ("b", 2)] ∧
    mappingAt (tmp_bind exLogger [("b", 2)] raisingBlock 0 exState).2 0 0
      ≠ some [("a", 1)] := by
  refine ⟨by decide, by decide, by decide⟩

/-- C2: scoped-bind round trip on normal exit.  Starting from a thread
context holding exactly a=1, `tmp_bind(logger, b=2)` first produces the bound
context a=1, b=2 (the context the yielded logger exposes), the with-block
additionally binds c=3 through the yielded logger, and after the scope exits
normally the whole state — in particular the thread's context mapping — is
exactly the original one again: a=1, no more, no less. -/
theorem tmp_bind_round_trip_normal_exit :
    mappingAt (loggerBind 0 [("b", 2)] 0 exState) 0 0 = some [("a", 1), ("b", 2)] ∧
    tmp_bind exLogger [("b", 2)] bindingBlock 0 exState = (none, exState) ∧
    mappingAt exState 0 0 = some [("a", 1)] := by
  refine ⟨by decide, by decide, by decide⟩

/-- C3: calling the scoped binder on a logger whose current context class was
not produced by `wrap_dict` (is not a `_ThreadLocalDictWrapper` subclass)
raises the configuration error (a `ValueError` in the source) immediately: no
snapshot is taken and the returned state is exactly the input state, for
every set of temporary values, every block, every thread and every state. -/
theorem tmp_bind_plain_context_fails_fast (logger : Logger)
    (h : logger.ctxClass = ContextClass.plainDict)
    (tmpValues : Mapping) (block : Logger → TLState → Option Exc × TLState)
    (tid : Nat) (s : TLState) :
    tmp_bind logger tmpValues block tid s = (some Exc.valueError, s) := by
  rw [tmp_bind, h]

/-- Witness for C3 at a concrete input: a plain-dict logger, values b=2, a
raising block, thread 0 and the a=1 state. -/
theorem tmp_bind_plain_context_fails_fast_witness :
    Logger.ctxClass ⟨ContextClass.plainDict⟩ = ContextClass.plainDict ∧
    tmp_bind ⟨ContextClass.plainDict⟩ [("b", 2)] raisingBlock 0 exState
      = (some Exc.valueError, exState) :=
  ⟨rfl, tmp_bind_plain_context_fails_fast ⟨ContextClass.plainDict⟩ rfl
      [("b", 2)] raisingBlock 0 exState⟩

/-- C4: `__init__` updates rather than replaces the calling thread's
pre-existing shared mapping.  When the thread already has a mapping: with a
same-class first positional argument only the keyword arguments are merged;
with a plain-mapping first positional argument both it and the keyword
arguments are forwarded to the shared mapping's update; with no positional
argument the keyword arguments are merged.  In every case the result is an
update of the existing contents, never a reset to empty. -/
theorem construct_updates_not_replaces (typeId tid a : Nat) (kw m : Mapping)
    (s : TLState) (h : s.slotAddr typeId tid = some a) :
    mappingAt (construct typeId tid (some PosArg.sameType) kw s) typeId tid
      = some (dictUpdate (s.heapGet a) kw) ∧
    mappingAt (construct typeId tid (some (PosArg.plainMapping m)) kw s) typeId tid
      = some (dictUpdate (dictUpdate (s.heapGet a) m) kw) ∧
    mappingAt (construct typeId tid none kw s) typeId tid
      = some (dictUpdate (s.heapGet a) kw) := by
  have hfound := getDict_found h
  refine ⟨?_, ?_, ?_⟩ <;>
  · rw [construct_eq, hfound]
    exact mappingAt_heapSet_self s typeId tid a _ h

/-- Witness for C4: with prior thread state a=1, constructing with keyword
argument b=2 (and a same-class positional argument, as `logger.bind` does)
yields a=1, b=2. -/
theorem construct_updates_not_replaces_witness :
    exState.slotAddr 0 0 = some 0 ∧
    mappingAt (construct 0 0 (some PosArg.sameType) [("b", 2)] exState) 0 0
      = some [("a", 1), ("b", 2)] := by
  refine ⟨by decide, ?_⟩
  have h := (construct_updates_not_replaces 0 0 0 [("b", 2)] [] exState (by decide)).1
  exact h.trans (by decide)

/-- C5: for a given context type and thread, at most one backing mapping ever
exists.  On a thread with no mapping yet, the first `_dict` access allocates
one by calling the backing mapping class with no arguments; any further access
returns that same object and leaves the state untouched; two construction
calls `T()` and `T()` on the same thread yield instances that are `==`; and a
write through one instance is immediately visible through a fresh access by
the other: reading the written key back through the shared object yields the
written value. -/
theorem backing_mapping_unique_per_type_and_thread (typeId tid : Nat)
    (key : String) (val : Nat) (s : TLState)
    (h : s.slotAddr typeId tid = none) :
    ((getDict typeId tid s).2).slotAddr typeId tid = some (getDict typeId tid s).1 ∧
    ((getDict typeId tid s).2).heapGet (getDict typeId tid s).1 = s.dictClassOf typeId ∧
    getDict typeId tid ((getDict typeId tid s).2) = getDict typeId tid s ∧
    instanceEq (newInstance typeId) (newInstance typeId) = true ∧
    dictLookup
      (((getDict typeId tid (setItemOp typeId tid key val ((getDict typeId tid s).2))).2).heapGet
        (getDict typeId tid (setItemOp typeId tid key val ((getDict typeId tid s).2))).1)
      key = some val := by
  have hg : getDict typeId tid s = (s.nextAddr, allocDict typeId tid s) := by
    rw [getDict, h]
  have hself := getDict_slotAddr_self typeId tid s
  refine ⟨hself, ?_, getDict_idem typeId tid s, ?_, ?_⟩
  · rw [hg]
    exact heapGet_allocDict_self typeId tid s
  · simp [instanceEq, newInstance]
  · have hsi : setItemOp typeId tid key val ((getDict typeId tid s).2)
        = ((getDict typeId tid s).2).heapSet (getDict typeId tid s).1
            (dictSetItem (((getDict typeId tid s).2).heapGet (getDict typeId tid s).1)
              key val) := by
      rw [setItemOp_eq, getDict_idem]
    rw [hsi]
    have hsl : (((getDict typeId tid s).2).heapSet (getDict typeId tid s).1
          (dictSetItem (((getDict typeId tid s).2).heapGet (getDict typeId tid s).1)
            key val)).slotAddr typeId tid = some (getDict typeId tid s).1 := by
      rw [slotAddr_heapSet]
      exact hself
    rw [getDict_found hsl]
    show dictLookup
        ((((getDict typeId tid s).2).heapSet (getDict typeId tid s).1
          (dictSetItem (((getDict typeId tid s).2).heapGet (getDict typeId tid s).1)
            key val)).heapGet (getDict typeId tid s).1)
        key = some val
    rw [heapGet_heapSet_self]
    exact dictLookup_setItem_self _ key val

/-- Witness for C5 at a concrete input: type 0, thread 0, key a, value 1, on
the state where no thread has a mapping yet. -/
theorem backing_mapping_unique_per_type_and_thread_witness :
    exState0.slotAddr 0 0 = none ∧
    (((getDict 0 0 exState0).2).slotAddr 0 0 = some (getDict 0 0 exState0).1 ∧
     ((getDict 0 0 exState0).2).heapGet (getDict 0 0 exState0).1 = exState0.dictClassOf 0 ∧
     getDict 0 0 ((getDict 0 0 exState0).2) = getDict 0 0 exState0 ∧
     instanceEq (newInstance 0) (newInstance 0) = true ∧
     dictLookup
       (((getDict 0 0 (setItemOp 0 0 "a" 1 ((getDict 0 0 exState0).2))).2).heapGet
         (getDict 0 0 (setItemOp 0 0 "a" 1 ((getDict 0 0 exState0).2))).1)
       "a" = some 1) :=
  ⟨by decide, backing_mapping_unique_per_type_and_thread 0 0 "a" 1 exState0 (by decide)⟩

/-- C7: equality of context instances is type identity alone.  Instances of
the same context type are `==` whatever their cached state (content lives in
the shared store, which `__eq__` never consults — it takes no state at all);
instances of different context types are never `==`; and `__ne__` is in every
case the boolean negation of `__eq__`. -/
theorem instance_equality_ignores_content (x y : CtxInstance) :
    (x.typeId = y.typeId → instanceEq x y = true) ∧
    (x.typeId ≠ y.typeId → instanceEq x y = false) ∧
    instanceNe x y = !(instanceEq x y) := by
  refine ⟨?_, ?_, rfl⟩
  · intro h
    simp [instanceEq, h]
  · intro h
    simp only [instanceEq, beq_eq_false_iff_ne, ne_eq]
    exact h

/-- Witness for C7: two instances of type 0 with different cached attributes
are equal; instances of types 0 and 1 are unequal; `!=` is the negation. -/
theorem instance_equality_ignores_content_witness :
    (CtxInstance.typeId ⟨0, [("copy", ⟨0, "copy"⟩)]⟩ = CtxInstance.typeId ⟨0, []⟩ ∧
     instanceEq ⟨0, [("copy", ⟨0, "copy"⟩)]⟩ ⟨0, []⟩ = true) ∧
    (CtxInstance.typeId ⟨0, []⟩ ≠ CtxInstance.typeId ⟨1, []⟩ ∧
     instanceEq ⟨0, []⟩ ⟨1, []⟩ = false) ∧
    instanceNe ⟨0, []⟩ ⟨1, []⟩ = !(instanceEq ⟨0, []⟩ ⟨1, []⟩) :=
  ⟨⟨rfl, (instance_equality_ignores_content ⟨0, [("copy", ⟨0, "copy"⟩)]⟩ ⟨0, []⟩).1 rfl⟩,
   ⟨by decide, (instance_equality_ignores_content ⟨0, []⟩ ⟨1, []⟩).2.1 (by decide)⟩,
   (instance_equality_ignores_content ⟨0, []⟩ ⟨1, []⟩).2.2⟩

/-- C9: on the first lookup of a forwarded attribute, `__getattr__` takes the
bound method of the mapping current for the calling thread at that moment and
stores it on the instance via `setattr`; every later lookup of that name on
the same instance — from any thread, in any later state — returns that
identical stored method without touching the state, so the cached method
keeps operating on the backing mapping of the thread of first lookup. -/
theorem getattr_caches_first_bound_method (inst : CtxInstance) (nm : String)
    (tidA tidB : Nat) (s sB : TLState)
    (h : assocLookup inst.attrCache nm = none) :
    (getattrOp inst nm tidA s).1 = ⟨(getDict inst.typeId tidA s).1, nm⟩ ∧
    (getattrOp inst nm tidA s).2.2 = (getDict inst.typeId tidA s).2 ∧
    getattrOp ((getattrOp inst nm tidA s).2.1) nm tidB sB
      = ((getattrOp inst nm tidA s).1, (getattrOp inst nm tidA s).2.1, sB) := by
  have hg : getattrOp inst nm tidA s
      = (⟨(getDict inst.typeId tidA s).1, nm⟩,
         ⟨inst.typeId, (nm, ⟨(getDict inst.typeId tidA s).1, nm⟩) :: inst.attrCache⟩,
         (getDict inst.typeId tidA s).2) := by
    rw [getattrOp, h]
  refine ⟨by rw [hg], by rw [hg], ?_⟩
  rw [hg]
  simp only
  rw [getattrOp]
  simp [assocLookup]

/-- Witness for C9: a fresh instance of type 0 looks up `copy` on thread 0 in
the a=1 state; the bound method targets that thread's mapping (address 0),
and the same lookup on thread 1 in the empty state returns it unchanged. -/
theorem getattr_caches_first_bound_method_witness :
    assocLookup (newInstance 0).attrCache "copy" = none ∧
    ((getattrOp (newInstance 0) "copy" 0 exState).1 = ⟨(getDict 0 0 exState).1, "copy"⟩ ∧
     (getattrOp (newInstance 0) "copy" 0 exState).2.2 = (getDict 0 0 exState).2 ∧
     getattrOp ((getattrOp (newInstance 0) "copy" 0 exState).2.1) "copy" 1 exState0
       = ((getattrOp (newInstance 0) "copy" 0 exState).1,
          (getattrOp (newInstance 0) "copy" 0 exState).2.1, exState0)) :=
  ⟨rfl, getattr_caches_first_bound_method (newInstance 0) "copy" 0 1 exState exState0 rfl⟩

/-- C10: the scoped binder restores by mutating the existing thread-shared
mapping in place — a clear followed by an update from the snapshot on the very
object the thread slot already held — never by replacing it: provided the
with-block completes normally and (like every operation of this module) does
not reassign the thread slot, the slot holds the same object address after
the scope as before, and that object then holds exactly the cleared-and-
repopulated snapshot contents, so any reference to the mapping obtained
before or inside the scope observes the restored contents. -/
theorem tmp_bind_restores_in_place (typeId tid a : Nat) (tmpValues : Mapping)
    (block : Logger → TLState → Option Exc × TLState) (s s3 : TLState)
    (ha : s.slotAddr typeId tid = some a)
    (hblock : block ⟨ContextClass.wrapped typeId⟩ (loggerBind typeId tmpValues tid s)
        = (none, s3))
    (ha3 : s3.slotAddr typeId tid = some a) :
    (tmp_bind ⟨ContextClass.wrapped typeId⟩ tmpValues block tid s).1 = none ∧
    ((tmp_bind ⟨ContextClass.wrapped typeId⟩ tmpValues block tid s).2).slotAddr typeId tid
      = some a ∧
    ((tmp_bind ⟨ContextClass.wrapped typeId⟩ tmpValues block tid s).2).heapGet a
      = dictUpdate [] (s.heapGet a) := by
  have hfound := getDict_found ha
  have hb : block ⟨ContextClass.wrapped typeId⟩
      (loggerBind typeId tmpValues tid (getDict typeId tid s).2) = (none, s3) := by
    rw [hfound]
    exact hblock
  have ht := tmp_bind_wrapped_normal typeId tid a tmpValues block s s3 hb ha3
  refine ⟨by rw [ht], ?_, ?_⟩
  · rw [ht]
    show (s3.heapSet a
        (dictUpdate [] (((getDict typeId tid s).2).heapGet
          (getDict typeId tid s).1))).slotAddr typeId tid = some a
    rw [slotAddr_heapSet]
    exact ha3
  · rw [ht]
    show (s3.heapSet a
        (dictUpdate [] (((getDict typeId tid s).2).heapGet
          (getDict typeId tid s).1))).heapGet a = dictUpdate [] (s.heapGet a)
    rw [heapGet_heapSet_self, hfound]

/-- Witness for C10: type 0, thread 0, snapshot a=1, temporary value b=2, and
the block that binds c=3; the restored mapping sits at the original address 0
and holds a=1 again. -/
theorem tmp_bind_restores_in_place_witness :
    exState.slotAddr 0 0 = some 0 ∧
    bindingBlock ⟨ContextClass.wrapped 0⟩ (loggerBind 0 [("b", 2)] 0 exState)
      = (none, loggerBind 0 [("c", 3)] 0 (loggerBind 0 [("b", 2)] 0 exState)) ∧
    (loggerBind 0 [("c", 3)] 0 (loggerBind 0 [("b", 2)] 0 exState)).slotAddr 0 0 = some 0 ∧
    ((tmp_bind ⟨ContextClass.wrapped 0⟩ [("b", 2)] bindingBlock 0 exState).1 = none ∧
     ((tmp_bind ⟨ContextClass.wrapped 0⟩ [("b", 2)] bindingBlock 0 exState).2).slotAddr 0 0
       = some 0 ∧
     ((tmp_bind ⟨ContextClass.wrapped 0⟩ [("b", 2)] bindingBlock 0 exState).2).heapGet 0
       = dictUpdate [] (exState.heapGet 0)) :=
  ⟨by decide, by decide, by decide,
   tmp_bind_restores_in_place 0 0 0 [("b", 2)] bindingBlock exState
     (loggerBind 0 [("c", 3)] 0 (loggerBind 0 [("b", 2)] 0 exState))
     (by decide) (by decide) (by decide)⟩

theorem slotAddr_none_of_fresh (s : TLState) (t tid : Nat) (hWFt : WFtypes s)
    (ht : s.nextTypeId ≤ t) : s.slotAddr t tid = none := by
  cases h : s.slotAddr t tid with
  | none => rfl
  | some a =>
      exfalso
      have h3 : t < s.nextTypeId := hWFt ((t, tid), a) (assocLookup_mem h)
      omega

/-- C6: thread isolation.  Under address well-formedness, every operation run
on thread `tid` — construction, item assignment, and the scoped binder with
its snapshot/bind/restore steps — leaves what any other thread `tid2` observes
for any context type completely unchanged; in particular a key absent from
thread `tid2`'s view before a write on thread `tid` is still absent after. -/
theorem thread_isolation (typeId tid t2 tid2 : Nat) (p : Option PosArg)
    (kw tmpValues : Mapping) (key : String) (val : Nat) (s : TLState)
    (hWF : WFaddrs s) (hne : tid2 ≠ tid)
    (habsent : dictLookup (observeCtx s t2 tid2) key = none) :
    observeCtx (construct typeId tid p kw s) t2 tid2 = observeCtx s t2 tid2 ∧
    observeCtx (setItemOp typeId tid key val s) t2 tid2 = observeCtx s t2 tid2 ∧
    observeCtx (tmp_bind ⟨ContextClass.wrapped typeId⟩ tmpValues idBlock tid s).2 t2 tid2
      = observeCtx s t2 tid2 ∧
    dictLookup (observeCtx (setItemOp typeId tid key val s) t2 tid2) key = none := by
  have hne2 : ¬(t2 = typeId ∧ tid2 = tid) := fun hc => hne hc.2
  have hc1 := observeCtx_construct_frame typeId tid t2 tid2 p kw s hWF hne2
  have hc2 := observeCtx_setItemOp_frame typeId tid t2 tid2 key val s hWF hne2
  refine ⟨hc1, hc2, ?_, by rw [hc2]; exact habsent⟩
  have hWF1 := WFaddrs_getDict typeId tid s hWF
  have hs2slot : (loggerBind typeId tmpValues tid ((getDict typeId tid s).2)).slotAddr
      typeId tid = some (getDict typeId tid s).1 := by
    rw [loggerBind, slotAddr_construct, getDict_idem]
    exact getDict_slotAddr_self typeId tid s
  have hWF2 : WFaddrs (loggerBind typeId tmpValues tid ((getDict typeId tid s).2)) := by
    rw [loggerBind]
    exact WFaddrs_construct typeId tid _ tmpValues _ hWF1
  have hb : idBlock ⟨ContextClass.wrapped typeId⟩
      (loggerBind typeId tmpValues tid (getDict typeId tid s).2)
      = (none, loggerBind typeId tmpValues tid (getDict typeId tid s).2) := rfl
  have ht := tmp_bind_wrapped_normal typeId tid (getDict typeId tid s).1 tmpValues idBlock s
      (loggerBind typeId tmpValues tid (getDict typeId tid s).2) hb hs2slot
  rw [ht]
  show observeCtx ((loggerBind typeId tmpValues tid ((getDict typeId tid s).2)).heapSet
      (getDict typeId tid s).1
      (dictUpdate [] (((getDict typeId tid s).2).heapGet (getDict typeId tid s).1)))
      t2 tid2
    = observeCtx s t2 tid2
  rw [observeCtx_heapSet_frame _ typeId tid t2 tid2 _ _ hWF2.1 hs2slot hne2]
  rw [loggerBind, observeCtx_construct_frame typeId tid t2 tid2 _ _ _ hWF1 hne2]
  exact observeCtx_getDict_frame typeId tid t2 tid2 s hWF hne2

/-- Witness for C6: thread 0 constructs with b=2, assigns b, and runs the
scoped binder; thread 1's view of type 0 never changes and the key stays
absent from it. -/
theorem thread_isolation_witness :
    WFaddrs exState ∧ (1 : Nat) ≠ 0 ∧
    dictLookup (observeCtx exState 0 1) "b" = none ∧
    (observeCtx (construct 0 0 (some PosArg.sameType) [("b", 2)] exState) 0 1
       = observeCtx exState 0 1 ∧
     observeCtx (setItemOp 0 0 "b" 2 exState) 0 1 = observeCtx exState 0 1 ∧
     observeCtx (tmp_bind ⟨ContextClass.wrapped 0⟩ [("b", 2)] idBlock 0 exState).2 0 1
       = observeCtx exState 0 1 ∧
     dictLookup (observeCtx (setItemOp 0 0 "b" 2 exState) 0 1) "b" = none) :=
  ⟨by decide, by decide, by decide,
   thread_isolation 0 0 0 1 (some PosArg.sameType) [("b", 2)] [("b", 2)] "b" 2 exState
     (by decide) (by decide) (by decide)⟩

/-- C8: every factory call produces a distinct context type.  Two successive
`wrap_dict` calls with the identical backing mapping implementation yield
different type ids, instances of the two types are never `==`, and the types
share no state: after writing a key through the first type on some thread,
the second type's context observed on that same thread is still exactly the
fresh backing-class instance, with the written key absent from it. -/
theorem wrap_dict_fresh_independent_types (d : Mapping) (tid : Nat) (key : String)
    (val : Nat) (s : TLState) (hWFt : WFtypes s) (hd : dictLookup d key = none) :
    (wrap_dict d s).1 ≠ (wrap_dict d (wrap_dict d s).2).1 ∧
    instanceEq (newInstance (wrap_dict d s).1)
      (newInstance (wrap_dict d (wrap_dict d s).2).1) = false ∧
    observeCtx
      (setItemOp (wrap_dict d s).1 tid key val ((wrap_dict d (wrap_dict d s).2).2))
      (wrap_dict d (wrap_dict d s).2).1 tid = d ∧
    dictLookup
      (observeCtx
        (setItemOp (wrap_dict d s).1 tid key val ((wrap_dict d (wrap_dict d s).2).2))
        (wrap_dict d (wrap_dict d s).2).1 tid) key = none := by
  have hslot2 : ∀ t t3 : Nat,
      ((wrap_dict d (wrap_dict d s).2).2).slotAddr t t3 = s.slotAddr t t3 :=
    fun _ _ => rfl
  have hfr1 : ((wrap_dict d (wrap_dict d s).2).2).slotAddr s.nextTypeId tid = none := by
    rw [hslot2]
    exact slotAddr_none_of_fresh s _ tid hWFt (Nat.le_refl _)
  have hfr2 : ((wrap_dict d (wrap_dict d s).2).2).slotAddr (s.nextTypeId + 1) tid = none := by
    rw [hslot2]
    exact slotAddr_none_of_fresh s _ tid hWFt (Nat.le_succ _)
  have hobs : observeCtx
      (setItemOp (wrap_dict d s).1 tid key val ((wrap_dict d (wrap_dict d s).2).2))
      (wrap_dict d (wrap_dict d s).2).1 tid = d := by
    show observeCtx
        (setItemOp s.nextTypeId tid key val ((wrap_dict d (wrap_dict d s).2).2))
        (s.nextTypeId + 1) tid = d
    have hget1 : (getDict s.nextTypeId tid ((wrap_dict d (wrap_dict d s).2).2)).1
        = ((wrap_dict d (wrap_dict d s).2).2).nextAddr := by
      rw [getDict, hfr1]
    have hget2 : (getDict s.nextTypeId tid ((wrap_dict d (wrap_dict d s).2).2)).2
        = allocDict s.nextTypeId tid ((wrap_dict d (wrap_dict d s).2).2) := by
      rw [getDict, hfr1]
    have hkey : ¬(s.nextTypeId + 1 = s.nextTypeId ∧ tid = tid) :=
      fun hc => absurd hc.1 (by omega)
    rw [setItemOp_eq, hget1, hget2, observeCtx, slotAddr_heapSet,
        slotAddr_allocDict_other _ _ _ _ _ hkey, hfr2]
    simp [TLState.dictClassOf, TLState.heapSet, allocDict, wrap_dict, assocLookup]
  refine ⟨?_, ?_, hobs, by rw [hobs]; exact hd⟩
  · show s.nextTypeId ≠ s.nextTypeId + 1
    omega
  · show instanceEq (newInstance s.nextTypeId) (newInstance (s.nextTypeId + 1)) = false
    simp only [instanceEq, newInstance, beq_eq_false_iff_ne, ne_eq]
    omega

/-- Witness for C8: two factory calls over the plain dict class on the a=1
state, writing k=5 through the first type on thread 0; the second type's
context on thread 0 is empty and in particular lacks the key. -/
theorem wrap_dict_fresh_independent_types_witness :
    WFtypes exState ∧ dictLookup ([] : Mapping) "k" = none ∧
    ((wrap_dict [] exState).1 ≠ (wrap_dict [] (wrap_dict [] exState).2).1 ∧
     instanceEq (newInstance (wrap_dict [] exState).1)
       (newInstance (wrap_dict [] (wrap_dict [] exState).2).1) = false ∧
     observeCtx
       (setItemOp (wrap_dict [] exState).1 0 "k" 5 ((wrap_dict [] (wrap_dict [] exState).2).2))
       (wrap_dict [] (wrap_dict [] exState).2).1 0 = [] ∧
     dictLookup
       (observeCtx
         (setItemOp (wrap_dict [] exState).1 0 "k" 5
           ((wrap_dict [] (wrap_dict [] exState).2).2))
         (wrap_dict [] (wrap_dict [] exState).2).1 0) "k" = none) :=
  ⟨by decide, by decide,
   wrap_dict_fresh_independent_types [] 0 "k" 5 exState (by decide) (by decide)⟩

end Structlog
